import Mathlib

/-
Verification of the octree spatial index (src/bbox.rs, src/octree.rs) against its
natural-language specification.

Shallow embedding conventions:
  * f32 coordinates are modelled as exact rationals.
  * Rust panics (assert!, unwrap on None, index out of bounds, u32 underflow in
    the Id-to-index conversion) are modelled with the Except String monad.
  * Recursive tree walks take an explicit fuel parameter; running out of fuel is
    an error, distinct from a modelled panic, so a concrete error result with a
    panic message identifies a genuine panic of the source.
  * The types Vec3, BCube and the Collider trait belong to this repository but
    their source files are not available; they are modelled from the spec where
    noted.  Everything else is translated directly from the Rust source.
-/

namespace Ami

/-- Modelled from the spec: the 3D point type Vec3 is part of this repository but
its source is not under src/; section 6 only needs componentwise construction,
comparison and addition and subtraction, so it is a record of three coordinates. -/
structure Vec3 where
  x : ℚ
  y : ℚ
  z : ℚ
deriving DecidableEq

/-- Bounding box (src/bbox.rs, struct BBox). -/
structure BBox where
  min : Vec3
  max : Vec3
deriving DecidableEq

/-- Modelled from the spec: the cubic-region type BCube is part of this repository
but its source is not under src/; section 6 requires a center plus half-extent
representation. -/
structure BCube where
  center : Vec3
  half_len : ℚ
deriving DecidableEq

/-- Rust assert!: succeeds when the condition holds, otherwise a modelled panic. -/
def rAssert (p : Prop) [Decidable p] : Except String Unit :=
  if p then Except.ok () else Except.error "assertion failed"

/-- Modelled from the spec: the empty/uninitialized sentinel value of BCube. -/
def BCube.empty : BCube :=
  { center := { x := 0, y := 0, z := 0 }, half_len := 0 }

/-- Modelled from the spec: conversion of a BCube to an equivalent min/max point
pair for overlap testing.  Returned in the source order (max, min). -/
def BCube.to_point_pair (c : BCube) : Vec3 × Vec3 :=
  ({ x := c.center.x + c.half_len, y := c.center.y + c.half_len, z := c.center.z + c.half_len },
   { x := c.center.x - c.half_len, y := c.center.y - c.half_len, z := c.center.z - c.half_len })

/-- BBox::new (src/bbox.rs lines 41-47): asserts min <= max on every axis, then
returns the box with exactly those bounds. -/
def BBox.new (mn mx : Vec3) : Except String BBox := do
  rAssert (mn.x ≤ mx.x)
  rAssert (mn.y ≤ mx.y)
  rAssert (mn.z ≤ mx.z)
  pure { min := mn, max := mx }

/-- BBox::collide (src/bbox.rs lines 50-57). -/
def BBox.collide (b other : BBox) : Bool :=
  decide (other.max.x ≥ b.min.x ∧ b.max.x ≥ other.min.x ∧
          other.max.y ≥ b.min.y ∧ b.max.y ≥ other.min.y ∧
          other.max.z ≥ b.min.z ∧ b.max.z ≥ other.min.z)

/-- BBox::collide_bcube (src/bbox.rs lines 60-63): converts the cube to a point
pair and builds a BBox with BBox::new (whose asserts can fire) before testing. -/
def BBox.collide_bcube (b : BBox) (c : BCube) : Except String Bool := do
  let pair := c.to_point_pair
  let other ← BBox.new pair.2 pair.1
  pure (b.collide other)

/-- BBox::collide_vec3 (src/bbox.rs lines 66-73). -/
def BBox.collide_vec3 (b : BBox) (p : Vec3) : Bool :=
  decide (p.x ≥ b.min.x ∧ p.x ≤ b.max.x ∧
          p.y ≥ b.min.y ∧ p.y ≤ b.max.y ∧
          p.z ≥ b.min.z ∧ p.z ≤ b.max.z)

/-- BBox::center (src/bbox.rs lines 90-96). -/
def BBox.center (b : BBox) : Vec3 :=
  { x := (b.min.x + b.max.x) / 2, y := (b.min.y + b.max.y) / 2, z := (b.min.z + b.max.z) / 2 }

/-- Modelled from the spec: BCube::extend, growing the cube minimally to contain a
given box, with growth bounded per call (the source comment says the function is
limited to growing twice in size, so the new half-extent is capped at double the
old one); the center moves to the center of the combined region. -/
def BCube.extend (c : BCube) (b : BBox) : BCube :=
  let mnx := min (c.center.x - c.half_len) b.min.x
  let mny := min (c.center.y - c.half_len) b.min.y
  let mnz := min (c.center.z - c.half_len) b.min.z
  let mxx := max (c.center.x + c.half_len) b.max.x
  let mxy := max (c.center.y + c.half_len) b.max.y
  let mxz := max (c.center.z + c.half_len) b.max.z
  let need := max ((mxx - mnx) / 2) (max ((mxy - mny) / 2) ((mxz - mnz) / 2))
  { center := { x := (mnx + mxx) / 2, y := (mny + mxy) / 2, z := (mnz + mxz) / 2 },
    half_len := min need (2 * c.half_len) }

/-- Modelled from the spec: the Into<BCube> conversion of a bounding box, the cube
exactly bounding the box (used by add_0 to bootstrap the root cube). -/
def BBox.toBCube (b : BBox) : BCube :=
  { center := b.center,
    half_len := Max.max ((b.max.x - b.min.x) / 2)
      (Max.max ((b.max.y - b.min.y) / 2) ((b.max.z - b.min.z) / 2)) }

/-- LINK constant (src/octree.rs line 34). -/
def LINK : Nat := 15

/-- LEAF sentinel (src/octree.rs line 35), the maximal u32 value. -/
def LEAF : Nat := 4294967295

/-- Id (src/octree.rs line 38): a u32 handle; 0 represents nothing. -/
structure Id where
  val : Nat
deriving DecidableEq

/-- Id::none (src/octree.rs lines 42-44). -/
def Id.none : Id := { val := 0 }

/-- Id::is_none (src/octree.rs lines 47-49). -/
def Id.is_none (i : Id) : Bool := decide (i.val = 0)

/-- Id::is_some (src/octree.rs lines 52-54). -/
def Id.is_some (i : Id) : Bool := !i.is_none

/-- Into<usize> for Id (src/octree.rs lines 63-67): (self.0 - 1) as usize.  On the
none handle the u32 subtraction underflows, a panic in a debug build and an
out-of-range index in release, so it is modelled as an error. -/
def Id.toIdx (i : Id) : Except String Nat :=
  if i.val = 0 then Except.error "u32 underflow" else Except.ok (i.val - 1)

/-- Into<Id> for usize (src/octree.rs lines 57-61): Id(self as u32 + 1). -/
def Id.ofIdx (k : Nat) : Id := { val := (k + 1) % 4294967296 }

/-- Node (src/octree.rs lines 79-82): an array of 16 child slots, modelled as a
function from slot index to Id (only slots 0-15 are ever read). -/
structure Node where
  child : Nat → Id

/-- Helper for in-place updates of one slot of a node. -/
def Node.setChild (n : Node) (i : Nat) (v : Id) : Node :=
  { child := fun j => if j = i then v else n.child j }

/-- Node::new_leaf (src/octree.rs lines 102-112). -/
def Node.new_leaf : Node :=
  { child := fun j => if j = 0 then { val := LEAF } else Id.none }

/-- Node::new_branch (src/octree.rs lines 115-119). -/
def Node.new_branch : Node :=
  { child := fun _ => Id.none }

/-- Node::is_leaf (src/octree.rs lines 122-124). -/
def Node.is_leaf (n : Node) : Bool := decide (n.child 0 = { val := LEAF })

/-- Node::is_branch (src/octree.rs lines 127-129). -/
def Node.is_branch (n : Node) : Bool := !n.is_leaf

/-- Node::link (src/octree.rs lines 132-141): the optional link slot, converted to
an index. -/
def Node.link (n : Node) : Option Nat :=
  if (n.child LINK).val = 0 then Option.none else Option.some ((n.child LINK).val - 1)

/-- Node::is_empty (src/octree.rs lines 144-154): asserts the node is a branch,
then reports whether slots 0-14 are all unset. -/
def Node.is_empty (n : Node) : Except String Bool := do
  rAssert (n.is_branch = true)
  pure ((List.range 15).all fun i => (n.child i).is_none)

/-- Node::branch_is_one (src/octree.rs lines 157-182): if exactly one of slots 0-7
is set and none of 8-14 is, returns the value of that one child converted with
Into<usize> (note: the child Id, not the slot index). -/
def Node.branch_is_one (n : Node) : Except String (Option Nat) := do
  rAssert (n.is_branch = true)
  match (List.range 8).filter (fun i => (n.child i).is_some) with
  | [i] =>
      if (List.drop 8 (List.range 15)).any (fun j => (n.child j).is_some) then
        pure Option.none
      else
        pure (Option.some ((n.child i).val - 1))
  | _ => pure Option.none

/-- Node::branch_open_slot (src/octree.rs lines 185-193): position of the first
empty entry of the slice child[8..=14]; the returned value is the position
relative to the start of the slice, exactly as Iterator::position yields it. -/
def Node.branch_open_slot (n : Node) : Except String (Option Nat) := do
  rAssert (n.is_branch = true)
  pure ((List.range 7).find? fun s => (n.child (8 + s)).is_none)

/-- Node::branch_add_collider (src/octree.rs lines 196-202): writes the collider
handle at child[s] where s is the value returned by branch_open_slot. -/
def Node.branch_add_collider (n : Node) (id : Id) : Except String (Option Node) := do
  let s ← n.branch_open_slot
  match s with
  | Option.none => pure Option.none
  | Option.some s => pure (Option.some (n.setChild s id))

/-- Node::branch_remove_collider (src/octree.rs lines 205-217): linear search of
slots 8-14. -/
def Node.branch_remove_collider (n : Node) (id : Id) : Except String (Option Node) := do
  rAssert (n.is_branch = true)
  match (List.drop 8 (List.range 15)).find? (fun i => n.child i = id) with
  | Option.some i => pure (Option.some (n.setChild i Id.none))
  | Option.none => pure Option.none

/-- Node::leaf_remove_collider (src/octree.rs lines 220-232): linear search of
slots 1-14. -/
def Node.leaf_remove_collider (n : Node) (id : Id) : Except String (Option Node) := do
  rAssert (n.is_leaf = true)
  match (List.drop 1 (List.range 15)).find? (fun i => n.child i = id) with
  | Option.some i => pure (Option.some (n.setChild i Id.none))
  | Option.none => pure Option.none

/-- Node::remove_collider (src/octree.rs lines 235-241). -/
def Node.remove_collider (n : Node) (id : Id) : Except String (Option Node) :=
  if n.is_branch then n.branch_remove_collider id else n.leaf_remove_collider id

/-- Node::which_child (src/octree.rs lines 244-255). -/
def Node.which_child (c p : Vec3) : Nat :=
  match (decide (p.x < c.x), decide (p.y < c.y), decide (p.z < c.z)) with
  | (true, true, true) => 0
  | (true, true, false) => 1
  | (true, false, true) => 2
  | (true, false, false) => 3
  | (false, true, true) => 4
  | (false, true, false) => 5
  | (false, false, true) => 6
  | (false, false, false) => 7

/-- Node::which_child_bbox (src/octree.rs lines 259-268). -/
def Node.which_child_bbox (c : Vec3) (p : BBox) : Option Nat :=
  let mn := Node.which_child c p.min
  let mx := Node.which_child c p.max
  if mn = mx then Option.some mn else Option.none

/-- Node::child_center (src/octree.rs lines 271-285): note the small-offset fudge,
offsets below 0.000001 are replaced by 1.0. -/
def Node.child_center (ch : Nat) (c : Vec3) (h : ℚ) : Except String Vec3 :=
  let h := if h < 1/1000000 then 1 else h
  match ch with
  | 0 => Except.ok { x := c.x - h, y := c.y - h, z := c.z - h }
  | 1 => Except.ok { x := c.x - h, y := c.y - h, z := c.z + h }
  | 2 => Except.ok { x := c.x - h, y := c.y + h, z := c.z - h }
  | 3 => Except.ok { x := c.x - h, y := c.y + h, z := c.z + h }
  | 4 => Except.ok { x := c.x + h, y := c.y - h, z := c.z - h }
  | 5 => Except.ok { x := c.x + h, y := c.y - h, z := c.z + h }
  | 6 => Except.ok { x := c.x + h, y := c.y + h, z := c.z - h }
  | 7 => Except.ok { x := c.x + h, y := c.y + h, z := c.z + h }
  | _ => Except.error "ch must be 0-7"

/-- Node::child_bcube (src/octree.rs lines 288-293). -/
def Node.child_bcube (ch : Nat) (bcube : BCube) : Except String BCube := do
  rAssert (bcube.half_len > 0)
  let half_len := bcube.half_len / 2
  let center ← Node.child_center ch bcube.center half_len
  pure { center := center, half_len := half_len }

/-- Octree (src/octree.rs lines 24-32), generic over the stored collider type.
The bbox capability of the Collider trait is passed explicitly as a function. -/
structure Octree (T : Type) where
  colliders : List T
  collider_garbage : List Id
  nodes : List Node
  garbage : List Id
  bcube : BCube
  root : Id
  n_colliders : Nat

/-- Octree::new (src/octree.rs lines 306-316). -/
def Octree.new {T : Type} : Octree T :=
  { colliders := [], collider_garbage := [], nodes := [], garbage := [],
    bcube := BCube.empty, root := Id.none, n_colliders := 0 }

/-- Indexed access to the collider arena; an invalid index is a Rust panic. -/
def Octree.getCollider {T : Type} (o : Octree T) (i : Nat) : Except String T :=
  match o.colliders[i]? with
  | Option.some c => Except.ok c
  | Option.none => Except.error "index out of bounds"

/-- Indexed access to the node arena; an invalid index is a Rust panic. -/
def Octree.getNode {T : Type} (o : Octree T) (i : Nat) : Except String Node :=
  match o.nodes[i]? with
  | Option.some n => Except.ok n
  | Option.none => Except.error "index out of bounds"

/-- Helper writing one node of the arena in place. -/
def Octree.setNode {T : Type} (o : Octree T) (i : Nat) (nd : Node) : Octree T :=
  { o with nodes := o.nodes.set i nd }

/-- Octree::new_node (src/octree.rs lines 474-483): reuse a free-listed slot or
append, returning the slot index plus one as the handle. -/
def Octree.new_node {T : Type} (o : Octree T) (n : Node) : Except String (Octree T × Id) :=
  match o.garbage with
  | i :: rest => do
      let k ← i.toIdx
      match o.nodes[k]? with
      | Option.some _ =>
          Except.ok ({ o with garbage := rest, nodes := o.nodes.set k n }, Id.ofIdx k)
      | Option.none => Except.error "index out of bounds"
  | [] =>
      Except.ok ({ o with nodes := o.nodes ++ [n] },
        { val := (o.nodes.length + 1) % 4294967296 })

/-- Octree::new_leaf (src/octree.rs lines 486-488). -/
def Octree.new_leaf {T : Type} (o : Octree T) : Except String (Octree T × Id) :=
  o.new_node Node.new_leaf

/-- Octree::new_branch (src/octree.rs lines 491-493). -/
def Octree.new_branch {T : Type} (o : Octree T) : Except String (Octree T × Id) :=
  o.new_node Node.new_branch

/-- Octree::grow_root (src/octree.rs lines 383-400): asserts the box does not
collide with the current root cube, extends the cube, wraps the old root into a
fresh branch at the octant holding the old center, and makes that branch root. -/
def Octree.grow_root {T : Type} (o : Octree T) (bbox : BBox) :
    Except String (Octree T) := do
  let cb ← bbox.collide_bcube o.bcube
  rAssert (cb = false)
  let ridx ← o.root.toIdx
  let rnode ← o.getNode ridx
  rAssert (rnode.is_branch = true)
  let center := o.bcube.center
  let o := { o with bcube := o.bcube.extend bbox }
  let ch := Node.which_child o.bcube.center center
  let (o, id) ← o.new_branch
  let iidx ← id.toIdx
  let nd ← o.getNode iidx
  let o := o.setNode iidx (nd.setChild ch o.root)
  pure { o with root := id }

/-- The while loop of Octree::add_n (src/octree.rs lines 373-376).  Note that the
loop condition tests the local copy bcube0 taken before the loop, exactly as the
source does; grow_root mutates self.bcube but the tested copy never changes. -/
def Octree.grow_loop {T : Type} (bb : T → BBox) :
    Nat → Octree T → BBox → BCube → Except String (Octree T)
  | 0, o, bbox, bcube0 => do
      let cb ← bbox.collide_bcube bcube0
      if cb then pure o else Except.error "fuel"
  | fuel + 1, o, bbox, bcube0 => do
      let cb ← bbox.collide_bcube bcube0
      if cb then pure o
      else do
        let o ← Octree.grow_root o bbox
        Octree.grow_loop bb fuel o bbox bcube0

mutual

/-- Octree::add_inside (src/octree.rs lines 403-442). -/
def Octree.add_inside {T : Type} (bb : T → BBox) :
    Nat → Octree T → Id → Id → BCube → Except String (Octree T)
  | 0, _, _, _, _ => Except.error "fuel"
  | fuel + 1, o, id, node_id, bcube => do
      let cidx ← id.toIdx
      let point ← o.getCollider cidx
      let bbox := bb point
      let nidx ← node_id.toIdx
      let cb ← bbox.collide_bcube bcube
      rAssert (cb = true)
      let nd ← o.getNode nidx
      rAssert (nd.is_branch = true)
      let r ← nd.branch_add_collider id
      match r with
      | Option.some nd1 => pure (o.setNode nidx nd1)
      | Option.none => do
          let o ← Octree.reloc bb fuel o nidx bcube [8, 9, 10, 11, 12, 13, 14]
          let (o, moved) ← Octree.add_down bb fuel o id nidx bcube
          if moved then pure o
          else do
            let nd2 ← o.getNode nidx
            let r2 ← nd2.branch_add_collider id
            match r2 with
            | Option.some nd3 => pure (o.setNode nidx nd3)
            | Option.none => do
                let (o, link_id) ← o.new_leaf
                let nd4 ← o.getNode nidx
                pure (o.setNode nidx (nd4.setChild LINK link_id))

/-- The relocation loop of Octree::add_inside (src/octree.rs lines 417-426): for
each listed slot, try to push its collider down; on success clear the slot. -/
def Octree.reloc {T : Type} (bb : T → BBox) :
    Nat → Octree T → Nat → BCube → List Nat → Except String (Octree T)
  | _, o, _, _, [] => pure o
  | 0, _, _, _, _ :: _ => Except.error "fuel"
  | fuel + 1, o, nidx, bcube, i :: rest => do
      let nd ← o.getNode nidx
      let collider := nd.child i
      let (o, moved) ← Octree.add_down bb fuel o collider nidx bcube
      let o ←
        if moved then do
          let nd1 ← o.getNode nidx
          pure (o.setNode nidx (nd1.setChild i Id.none))
        else pure o
      Octree.reloc bb fuel o nidx bcube rest

/-- Octree::add_down (src/octree.rs lines 445-471). -/
def Octree.add_down {T : Type} (bb : T → BBox) :
    Nat → Octree T → Id → Nat → BCube → Except String (Octree T × Bool)
  | 0, _, _, _, _ => Except.error "fuel"
  | fuel + 1, o, id, node_id, bcube => do
      let cidx ← id.toIdx
      let point ← o.getCollider cidx
      let bbox := bb point
      match Node.which_child_bbox bcube.center bbox with
      | Option.some ch => do
          let nd ← o.getNode node_id
          let j := nd.child ch
          let bc ← Node.child_bcube ch bcube
          if j.is_some then do
            let o ← Octree.add_inside bb fuel o id j bc
            pure (o, true)
          else do
            let (o, k) ← o.new_branch
            let nd1 ← o.getNode node_id
            let o := o.setNode node_id (nd1.setChild ch k)
            let kidx ← k.toIdx
            let nd2 ← o.getNode kidx
            let r ← nd2.branch_add_collider id
            match r with
            | Option.some nd3 => pure (o.setNode kidx nd3, true)
            | Option.none => Except.error "unwrap on none"
      | Option.none => pure (o, false)

end

/-- Octree::add_0 (src/octree.rs lines 345-362). -/
def Octree.add_0 {T : Type} (bb : T → BBox) (o : Octree T) (id : Id) :
    Except String (Octree T) := do
  rAssert (o.n_colliders = 0)
  let o := { o with nodes := [], garbage := [] }
  let cidx ← id.toIdx
  let point ← o.getCollider cidx
  let o := { o with bcube := (bb point).toBCube }
  let (o, i) ← o.new_branch
  let iidx ← i.toIdx
  let nd ← o.getNode iidx
  let r ← nd.branch_add_collider id
  match r with
  | Option.some nd1 =>
      pure { o.setNode iidx nd1 with root := i }
  | Option.none => Except.error "unwrap on none"

/-- Octree::add_n (src/octree.rs lines 365-380).  The local copies of bcube and
root are taken before the grow loop and are what the loop condition and the
final add_inside call use, exactly as the source does. -/
def Octree.add_n {T : Type} (bb : T → BBox) (fuel : Nat) (o : Octree T) (id : Id) :
    Except String (Octree T) := do
  rAssert (0 < o.n_colliders)
  let cidx ← id.toIdx
  let point ← o.getCollider cidx
  let bbox := bb point
  let bcube := o.bcube
  let root := o.root
  let o ← Octree.grow_loop bb fuel o bbox bcube
  Octree.add_inside bb fuel o id root bcube

/-- Octree::add (src/octree.rs lines 319-342). -/
def Octree.add {T : Type} (bb : T → BBox) (fuel : Nat) (o : Octree T) (point : T) :
    Except String (Octree T × Id) := do
  let (o, id) ←
    match o.collider_garbage with
    | id :: rest => do
        let idx ← id.toIdx
        match o.colliders[idx]? with
        | Option.some _ =>
            pure ({ o with collider_garbage := rest,
                           colliders := o.colliders.set idx point }, id)
        | Option.none => Except.error "index out of bounds"
    | [] =>
        pure ({ o with colliders := o.colliders ++ [point] },
          ({ val := (o.colliders.length + 1) % 4294967296 } : Id))
  let o ←
    match o.n_colliders with
    | 0 => Octree.add_0 bb o id
    | _ + 1 => Octree.add_n bb fuel o id
  pure ({ o with n_colliders := o.n_colliders + 1 }, id)

/-- Octree::remove_from_branch (src/octree.rs lines 573-602).  Note that the local
variable node_id is shadowed by the link target before the empty-link cleanup,
exactly as in the source. -/
def Octree.remove_from_branch {T : Type} :
    Nat → Octree T → Id → Nat → Except String (Octree T × Option Id)
  | 0, _, _, _ => Except.error "fuel"
  | fuel + 1, o, id, node_id => do
      let nd ← o.getNode node_id
      let r ← nd.remove_collider id
      match r with
      | Option.some nd1 => do
          let o := o.setNode node_id nd1
          let nd2 ← o.getNode node_id
          let e ← nd2.is_empty
          if e then pure (o, Option.some (Id.ofIdx node_id))
          else pure (o, Option.none)
      | Option.none => do
          match nd.link with
          | Option.none => Except.error "unwrap on none"
          | Option.some node_id2 => do
              let (o, rm) ← Octree.remove_from_branch fuel o id node_id2
              match rm with
              | Option.some rm => do
                  let nd3 ← o.getNode node_id2
                  rAssert (rm = nd3.child LINK)
                  let o := { o with garbage := rm :: o.garbage }
                  let o := o.setNode node_id2 (nd3.setChild LINK Id.none)
                  pure (o, Option.none)
              | Option.none => pure (o, Option.none)

/-- Octree::remove_inside (src/octree.rs lines 529-570). -/
def Octree.remove_inside {T : Type} (bb : T → BBox) :
    Nat → Octree T → Id → Id → BCube → Except String (Octree T × Option Id)
  | 0, _, _, _, _ => Except.error "fuel"
  | fuel + 1, o, id, node_id, bcube => do
      let cidx ← id.toIdx
      let point ← o.getCollider cidx
      let bbox := bb point
      let nidx ← node_id.toIdx
      let cb ← bbox.collide_bcube bcube
      rAssert (cb = true)
      let nd ← o.getNode nidx
      rAssert (nd.is_branch = true)
      match Node.which_child_bbox bcube.center bbox with
      | Option.some ch =>
          let j := nd.child ch
          if j.is_some then do
            let (o, rm) ← Octree.remove_inside bb fuel o id j bcube
            match rm with
            | Option.some rm => do
                rAssert (j = rm)
                let o := { o with garbage := rm :: o.garbage }
                let nd1 ← o.getNode nidx
                let o := o.setNode nidx (nd1.setChild ch Id.none)
                pure (o, Option.none)
            | Option.none => pure (o, Option.none)
          else
            Octree.remove_from_branch fuel o id nidx
      | Option.none =>
          Octree.remove_from_branch fuel o id nidx

/-- Octree::remove (src/octree.rs lines 496-526). -/
def Octree.remove {T : Type} (bb : T → BBox) (fuel : Nat) (o : Octree T) (id : Id) :
    Except String (Octree T × T) := do
  rAssert (0 < o.n_colliders)
  let bcube := o.bcube
  let root := o.root
  let (o, r) ← Octree.remove_inside bb fuel o id root bcube
  rAssert (r = Option.none)
  let ridx ← o.root.toIdx
  let o := { o with collider_garbage := id :: o.collider_garbage }
  let rnode ← o.getNode ridx
  let bio ← rnode.branch_is_one
  let o ←
    match bio with
    | Option.some ch => do
        let o := { o with garbage := o.root :: o.garbage }
        pure { o with root := rnode.child ch }
    | Option.none => pure o
  let o := { o with n_colliders := o.n_colliders - 1 }
  let cidx ← id.toIdx
  let ret ← o.getCollider cidx
  pure (o, ret)

/-- The Collider capability instance for trees that store bounding boxes directly:
the stored value reports itself as its bounding box. -/
def bboxId : BBox → BBox := fun b => b

/-- Projection of an Except value to its error message, if any. -/
def errOf {α : Type} : Except String α → Option String
  | Except.error e => Option.some e
  | Except.ok _ => Option.none

/-- A degenerate box at the origin, used as a concrete stored object. -/
def b0 : BBox := { min := ⟨0, 0, 0⟩, max := ⟨0, 0, 0⟩ }

/-- The unit-ish box from 0 to 2 on every axis. -/
def bA : BBox := { min := ⟨0, 0, 0⟩, max := ⟨2, 2, 2⟩ }

/-- A far-away box from 10 to 12 on every axis, not touching bA. -/
def bB : BBox := { min := ⟨10, 10, 10⟩, max := ⟨12, 12, 12⟩ }

/-- A branch node whose link slot (15) points at the node with handle 2. -/
def ndBranch : Node := Node.new_branch.setChild 15 { val := 2 }

/-- A leaf node holding the collider handle 5 in its first collider slot. -/
def ndLeaf : Node := Node.new_leaf.setChild 1 { val := 5 }

/-- A tree whose root branch has no direct colliders and links to a leaf that
holds exactly one collider handle, 5. -/
def oC3 : Octree BBox :=
  { colliders := [], collider_garbage := [], nodes := [ndBranch, ndLeaf],
    garbage := [], bcube := BCube.empty, root := { val := 1 }, n_colliders := 1 }

/-- C1.  The spec says a direct-collider insertion into a branch stores the handle
in the first empty slot among child slots 8-14.  Evaluating the source function on
a fresh branch (all slots empty) and handle 1 shows the handle lands in slot 0, an
octant-child slot, while slots 8-14 all stay empty: branch_open_slot returns the
position relative to the slice child[8..=14] and branch_add_collider indexes the
whole child array with it, contradicting both the spec sentence and the removal
search which scans 8-14.  The failure of the claim is a slip in the code, not in
the spec. -/
theorem C1_branch_add_collider_slot_bug :
    (Node.new_branch.branch_add_collider { val := 1 }).map
      (Option.map fun nd => (List.range 16).map fun i => (nd.child i).val) =
    Except.ok (Option.some [1, 0, 0, 0, 0, 0, 0, 0, 0, 0, 0, 0, 0, 0, 0, 0]) := by
  rfl

/-- C2.  The spec says add always terminates successfully, growing the root until
the new box fits.  Evaluating the source: the first add (box 0..2 cubed) succeeds,
but adding a second box (10..12 cubed) that does not overlap the root cube panics
with an assertion failure: the grow loop in add_n tests a local copy of the root
cube taken before the loop, so the loop condition never becomes false, and on a
later iteration grow_root asserts that the box still does not collide with the
(by then grown) current cube, which fails.  The code contradicts its own loop
comment, so the claim is right and the code wrong. -/
theorem C2_add_grow_panics :
    (Octree.add bboxId 10 Octree.new bA).map (fun p => p.2.val) = Except.ok 1 ∧
    errOf (do
      let p ← Octree.add bboxId 10 Octree.new bA
      Octree.add bboxId 10 p.1 bB) = Option.some "assertion failed" :=
  ⟨by with_unfolding_all rfl, by with_unfolding_all rfl⟩

/-- C3.  The spec says removal follows the overflow link when the handle is not in
the current node, and when the linked leaf becomes empty the link slot of the
pointing node is cleared and the leaf reclaimed.  Evaluating remove_from_branch on a branch
whose link leaf holds exactly the sought handle: the handle is found and cleared
in the leaf, but the emptiness check Node::is_empty asserts the node is a branch,
so emptying a linked leaf is an assertion failure instead of the cleanup the spec
describes (and the cleanup code would clear the own link slot of the leaf anyway, since
the local node_id is shadowed by the link target).  The code contradicts its own
comments, so this is a code bug. -/
theorem C3_link_cleanup_panics :
    ndBranch.child 15 = { val := 2 } ∧ ndLeaf.child 1 = { val := 5 } ∧
    errOf (Octree.remove_from_branch 10 oC3 { val := 5 } 0) =
      Option.some "assertion failed" :=
  ⟨by rfl, by rfl, by rfl⟩

/-- C7.  The spec round-trip property: a value inserted under handle h is returned
by remove(h).  Evaluating the source on the simplest sequence (insert one box,
remove its handle): the insertion succeeds and stores the box, but remove panics
(Option::unwrap on None when following a non-existent link), because the insertion
placed the handle in an octant slot (see C1) where the removal search never looks.
Round-trip is the clear intent of the code, so this is a code bug. -/
theorem C7_round_trip_fails :
    (Octree.add bboxId 10 Octree.new b0).map (fun p => (p.1.colliders, p.2.val)) =
      Except.ok ([b0], 1) ∧
    errOf (do
      let p ← Octree.add bboxId 10 Octree.new b0
      Octree.remove bboxId 10 p.1 p.2) = Option.some "unwrap on none" :=
  ⟨by with_unfolding_all rfl, by with_unfolding_all rfl⟩

/-- C8.  The spec count invariant: after N adds and M valid removes the live count
is N - M.  Adds alone keep the count right (after one add the count is 1), but the
very first remove of a live handle panics (see C7), so no sequence with M at least
1 can complete and the invariant fails beyond add-only prefixes.  This is the same
underlying code bug as C1/C7. -/
theorem C8_count_invariant_fails :
    ((Octree.add bboxId 10 Octree.new b0).map fun p => p.1.n_colliders) =
      Except.ok 1 ∧
    errOf (do
      let p ← Octree.add bboxId 10 Octree.new b0
      Octree.remove bboxId 10 p.1 p.2) = Option.some "unwrap on none" :=
  ⟨by with_unfolding_all rfl, by with_unfolding_all rfl⟩

/-- Componentwise order on points: the well-formedness precondition of BBox::new. -/
def Vec3.le (a b : Vec3) : Prop := a.x ≤ b.x ∧ a.y ≤ b.y ∧ a.z ≤ b.z

instance (a b : Vec3) : Decidable (Vec3.le a b) :=
  inferInstanceAs (Decidable (_ ∧ _ ∧ _))

theorem ebind_ok {α β : Type} (a : α) (f : α → Except String β) :
    (Except.ok a >>= f) = f a := rfl

theorem ebind_err {α β : Type} (e : String) (f : α → Except String β) :
    ((Except.error e : Except String α) >>= f) = Except.error e := rfl

theorem rAssert_pos {p : Prop} [Decidable p] (h : p) : rAssert p = Except.ok () := by
  simp [rAssert, h]

theorem rAssert_neg {p : Prop} [Decidable p] (h : ¬ p) :
    rAssert p = Except.error "assertion failed" := by
  simp [rAssert, h]

/-- C9.  BBox::new asserts min <= max on every axis: with a well-formed pair it
returns exactly that box, and with min > max on some axis it is a modelled panic
(assertion failure), not a recoverable result. -/
theorem C9_bbox_new_asserts (mn mx : Vec3) :
    (Vec3.le mn mx → BBox.new mn mx = Except.ok { min := mn, max := mx }) ∧
    (¬ Vec3.le mn mx → BBox.new mn mx = Except.error "assertion failed") := by
  constructor
  · rintro ⟨h1, h2, h3⟩
    unfold BBox.new
    rw [rAssert_pos h1, ebind_ok, rAssert_pos h2, ebind_ok, rAssert_pos h3, ebind_ok]
    rfl
  · intro h
    unfold BBox.new
    by_cases h1 : mn.x ≤ mx.x
    · by_cases h2 : mn.y ≤ mx.y
      · by_cases h3 : mn.z ≤ mx.z
        · exact absurd ⟨h1, h2, h3⟩ h
        · rw [rAssert_pos h1, ebind_ok, rAssert_pos h2, ebind_ok, rAssert_neg h3,
            ebind_err]
      · rw [rAssert_pos h1, ebind_ok, rAssert_neg h2, ebind_err]
    · rw [rAssert_neg h1, ebind_err]

/-- C9 witness: the theorem applied at a well-formed pair and at a malformed pair. -/
theorem C9_bbox_new_asserts_witness :
    BBox.new ⟨0, 0, 0⟩ ⟨1, 1, 1⟩ = Except.ok { min := ⟨0, 0, 0⟩, max := ⟨1, 1, 1⟩ } ∧
    BBox.new ⟨2, 0, 0⟩ ⟨1, 1, 1⟩ = Except.error "assertion failed" :=
  ⟨(C9_bbox_new_asserts ⟨0, 0, 0⟩ ⟨1, 1, 1⟩).1 (by norm_num [Vec3.le]),
   (C9_bbox_new_asserts ⟨2, 0, 0⟩ ⟨1, 1, 1⟩).2 (by norm_num [Vec3.le])⟩

/-- C4 counterexample.  The claim says a point equal to the center on an axis is
classified on the "below" side of that axis, the same octant as a strictly-below
point.  At center (0,0,0), the all-tied point (0,0,0) is classified into octant 7
while the strictly-below point (-1,-1,-1) goes to octant 0, so ties are in fact
classified on the other side. -/
theorem C4_tie_counterexample :
    Node.which_child ⟨0, 0, 0⟩ ⟨0, 0, 0⟩ = 7 ∧
    Node.which_child ⟨0, 0, 0⟩ ⟨-1, -1, -1⟩ = 0 ∧ (7 : Nat) ≠ 0 :=
  ⟨by with_unfolding_all rfl, by with_unfolding_all rfl, by decide⟩

/-- C4 (amended).  which_child is a total deterministic function of (center,
point) returning one of the 8 octant indices; a tie on an axis (point equal to
center) is classified on the side of strict comparison failing, that is the same
octant as points strictly above the center on that axis; this is the amendment the
counterexample forces (the spec said ties join the "below" side). -/
theorem C4_which_child_total_ties_high (c p : Vec3) :
    Node.which_child c p < 8 ∧
    (p.x = c.x → Node.which_child c p = Node.which_child c ⟨c.x + 1, p.y, p.z⟩) ∧
    (p.y = c.y → Node.which_child c p = Node.which_child c ⟨p.x, c.y + 1, p.z⟩) ∧
    (p.z = c.z → Node.which_child c p = Node.which_child c ⟨p.x, p.y, c.z + 1⟩) := by
  have hone : ∀ q : ℚ, ¬ q + 1 < q := fun q => by linarith
  refine ⟨?_, fun hx => ?_, fun hy => ?_, fun hz => ?_⟩
  · by_cases hx : p.x < c.x <;> by_cases hy : p.y < c.y <;> by_cases hz : p.z < c.z <;>
      simp [Node.which_child, hx, hy, hz]
  · have h1 : ¬ p.x < c.x := by rw [hx]; exact lt_irrefl _
    by_cases hy : p.y < c.y <;> by_cases hz : p.z < c.z <;>
      simp [Node.which_child, h1, hone c.x, hy, hz]
  · have h1 : ¬ p.y < c.y := by rw [hy]; exact lt_irrefl _
    by_cases hx : p.x < c.x <;> by_cases hz : p.z < c.z <;>
      simp [Node.which_child, h1, hone c.y, hx, hz]
  · have h1 : ¬ p.z < c.z := by rw [hz]; exact lt_irrefl _
    by_cases hx : p.x < c.x <;> by_cases hy : p.y < c.y <;>
      simp [Node.which_child, h1, hone c.z, hx, hy]

/-- C4 witness: the amended theorem applied at center (0,0,0) and the all-tied
point (0,0,0). -/
theorem C4_which_child_total_ties_high_witness :
    Node.which_child ⟨0, 0, 0⟩ ⟨0, 0, 0⟩ < 8 ∧
    Node.which_child ⟨0, 0, 0⟩ ⟨0, 0, 0⟩ = Node.which_child ⟨0, 0, 0⟩ ⟨0 + 1, 0, 0⟩ :=
  ⟨(C4_which_child_total_ties_high ⟨0, 0, 0⟩ ⟨0, 0, 0⟩).1,
   (C4_which_child_total_ties_high ⟨0, 0, 0⟩ ⟨0, 0, 0⟩).2.1 rfl⟩

/-- Membership of a point in the closed cubic region of a BCube, through the
source primitives: the box the cube converts to collides with the point. -/
def BCube.containsPoint (c : BCube) (p : Vec3) : Bool :=
  (BBox.mk c.to_point_pair.2 c.to_point_pair.1).collide_vec3 p

/-- Membership of a point in the open interior of the cubic region of a BCube. -/
def BCube.containsPointStrict (c : BCube) (p : Vec3) : Prop :=
  c.center.x - c.half_len < p.x ∧ p.x < c.center.x + c.half_len ∧
  c.center.y - c.half_len < p.y ∧ p.y < c.center.y + c.half_len ∧
  c.center.z - c.half_len < p.z ∧ p.z < c.center.z + c.half_len

theorem containsPoint_iff (c : BCube) (p : Vec3) :
    BCube.containsPoint c p = true ↔
      (c.center.x - c.half_len ≤ p.x ∧ p.x ≤ c.center.x + c.half_len ∧
       c.center.y - c.half_len ≤ p.y ∧ p.y ≤ c.center.y + c.half_len ∧
       c.center.z - c.half_len ≤ p.z ∧ p.z ≤ c.center.z + c.half_len) := by
  simp [BCube.containsPoint, BBox.collide_vec3, BCube.to_point_pair, ge_iff_le]

/-- The center-and-half-extent formula the spec describes for the child cube of
octant ch, with the tie-free sign pattern of the source table. -/
def childCubeFormula (par : BCube) (ch : Nat) : BCube :=
  { center :=
      { x := par.center.x + (if ch < 4 then -(par.half_len / 2) else par.half_len / 2),
        y := par.center.y + (if ch % 4 < 2 then -(par.half_len / 2) else par.half_len / 2),
        z := par.center.z + (if ch % 2 = 0 then -(par.half_len / 2) else par.half_len / 2) },
    half_len := par.half_len / 2 }

theorem child_bcube_eval (par : BCube) (ch : Nat) (hch : ch < 8)
    (hfud : 1 / 1000000 ≤ par.half_len / 2) :
    Node.child_bcube ch par = Except.ok (childCubeFormula par ch) := by
  have hpos : par.half_len > 0 := by linarith
  have hnf : ¬ (par.half_len / 2 < 1 / 1000000) := not_lt.2 hfud
  have hif : (if par.half_len / 2 < 1 / 1000000 then (1 : ℚ) else par.half_len / 2)
      = par.half_len / 2 := if_neg hnf
  unfold Node.child_bcube
  rw [rAssert_pos hpos, ebind_ok]
  interval_cases ch <;>
    simp only [Node.child_center, hif, childCubeFormula, ebind_ok] <;>
    norm_num <;>
    ring_nf <;>
    simp [Vec3.mk.injEq] <;>
    ring_nf <;>
    rfl

/-- C5 counterexample.  The claim says that for every parent cube with positive
half-extent the child center is offset from the parent center by half the parent
half-extent per axis, and the 8 children fill the parent.  For the cube centered
at the origin with half-extent 1/1000000 (positive), the requested offset per
axis would be 1/2000000, but the source fudge in child_center replaces offsets
below 0.000001 by 1.0: the computed child 7 is centered at (1,1,1), and that
center is not even inside the parent region, so the children cannot fill it. -/
theorem C5_tiny_cube_counterexample :
    Node.child_bcube 7 { center := ⟨0, 0, 0⟩, half_len := 1 / 1000000 } =
      Except.ok { center := ⟨1, 1, 1⟩, half_len := 1 / 2000000 } ∧
    ((0 : ℚ) + (1 / 1000000) / 2 ≠ 1) ∧
    BCube.containsPoint { center := ⟨0, 0, 0⟩, half_len := 1 / 1000000 } ⟨1, 1, 1⟩
      = false :=
  ⟨by with_unfolding_all rfl, by norm_num, by with_unfolding_all rfl⟩

set_option maxHeartbeats 3200000 in
/-- C5 (amended).  For every parent cube whose half-extent h satisfies h/2 at
least 1/1000000 (so the small-offset fudge of child_center does not fire; the
counterexample shows the claim fails below that) and every octant index ch in
0-7: the derived child cube has half-extent h/2 and center offset from the parent
center by h/2 along each axis with sign determined by ch (childCubeFormula);
the 8 child regions together cover exactly the parent region, and distinct child
regions have disjoint interiors. -/
theorem C5_child_bcube_amended (par : BCube) (ch : Nat) (hch : ch < 8)
    (hfud : 1 / 1000000 ≤ par.half_len / 2) :
    (Node.child_bcube ch par = Except.ok (childCubeFormula par ch)) ∧
    (∀ p : Vec3, BCube.containsPoint par p = true ↔
      ∃ k, k < 8 ∧ ∃ cbk, Node.child_bcube k par = Except.ok cbk ∧
        BCube.containsPoint cbk p = true) ∧
    (∀ k, k < 8 → k ≠ ch → ∀ p,
      BCube.containsPointStrict (childCubeFormula par ch) p →
      BCube.containsPointStrict (childCubeFormula par k) p → False) := by
  have hh : (0 : ℚ) ≤ par.half_len := by linarith
  refine ⟨child_bcube_eval par ch hch hfud, fun p => ?_, fun k hk hne p hp1 hp2 => ?_⟩
  · constructor
    · intro hp
      rw [containsPoint_iff] at hp
      obtain ⟨h1, h2, h3, h4, h5, h6⟩ := hp
      rcases le_or_lt p.x par.center.x with hx | hx <;>
        rcases le_or_lt p.y par.center.y with hy | hy <;>
        rcases le_or_lt p.z par.center.z with hz | hz
      · refine ⟨0, by norm_num, _, child_bcube_eval par 0 (by norm_num) hfud, ?_⟩
        rw [containsPoint_iff]; norm_num [childCubeFormula]
        refine ⟨by linarith, by linarith, by linarith, by linarith, by linarith, by linarith⟩
      · refine ⟨1, by norm_num, _, child_bcube_eval par 1 (by norm_num) hfud, ?_⟩
        rw [containsPoint_iff]; norm_num [childCubeFormula]
        refine ⟨by linarith, by linarith, by linarith, by linarith, by linarith, by linarith⟩
      · refine ⟨2, by norm_num, _, child_bcube_eval par 2 (by norm_num) hfud, ?_⟩
        rw [containsPoint_iff]; norm_num [childCubeFormula]
        refine ⟨by linarith, by linarith, by linarith, by linarith, by linarith, by linarith⟩
      · refine ⟨3, by norm_num, _, child_bcube_eval par 3 (by norm_num) hfud, ?_⟩
        rw [containsPoint_iff]; norm_num [childCubeFormula]
        refine ⟨by linarith, by linarith, by linarith, by linarith, by linarith, by linarith⟩
      · refine ⟨4, by norm_num, _, child_bcube_eval par 4 (by norm_num) hfud, ?_⟩
        rw [containsPoint_iff]; norm_num [childCubeFormula]
        refine ⟨by linarith, by linarith, by linarith, by linarith, by linarith, by linarith⟩
      · refine ⟨5, by norm_num, _, child_bcube_eval par 5 (by norm_num) hfud, ?_⟩
        rw [containsPoint_iff]; norm_num [childCubeFormula]
        refine ⟨by linarith, by linarith, by linarith, by linarith, by linarith, by linarith⟩
      · refine ⟨6, by norm_num, _, child_bcube_eval par 6 (by norm_num) hfud, ?_⟩
        rw [containsPoint_iff]; norm_num [childCubeFormula]
        refine ⟨by linarith, by linarith, by linarith, by linarith, by linarith, by linarith⟩
      · refine ⟨7, by norm_num, _, child_bcube_eval par 7 (by norm_num) hfud, ?_⟩
        rw [containsPoint_iff]; norm_num [childCubeFormula]
        refine ⟨by linarith, by linarith, by linarith, by linarith, by linarith, by linarith⟩
    · rintro ⟨k, hk, cbk, hcb, hmem⟩
      have hkf : childCubeFormula par k = cbk :=
        Except.ok.inj ((child_bcube_eval par k hk hfud).symm.trans hcb)
      rw [← hkf, containsPoint_iff] at hmem
      rw [containsPoint_iff]
      interval_cases k <;>
        (norm_num [childCubeFormula] at hmem
         obtain ⟨a1, a2, a3, a4, a5, a6⟩ := hmem
         refine ⟨by linarith, by linarith, by linarith, by linarith, by linarith, by linarith⟩)
  · simp only [BCube.containsPointStrict, childCubeFormula] at hp1 hp2
    interval_cases ch <;> interval_cases k <;>
      first
        | exact hne rfl
        | (norm_num at hp1 hp2
           obtain ⟨a1, a2, a3, a4, a5, a6⟩ := hp1
           obtain ⟨b1, b2, b3, b4, b5, b6⟩ := hp2
           linarith)

/-- C5 witness: the amended theorem applied to the cube of half-extent 2 at the
origin and octant 3, giving the child centered at (-1,1,1) with half-extent 1. -/
theorem C5_child_bcube_amended_witness :
    Node.child_bcube 3 { center := ⟨0, 0, 0⟩, half_len := 2 } =
      Except.ok { center := ⟨-1, 1, 1⟩, half_len := 1 } := by
  have h := (C5_child_bcube_amended { center := ⟨0, 0, 0⟩, half_len := 2 } 3
    (by norm_num) (by norm_num)).1
  rw [h]
  norm_num [childCubeFormula]

theorem epure {α : Type} (a : α) : (pure a : Except String α) = Except.ok a := rfl

theorem rAssert_trivial : rAssert True = Except.ok () := rAssert_pos trivial

theorem add_down_straddle {T : Type} (bb : T → BBox) (f : Nat) (o : Octree T)
    (cid : Id) (nidx : Nat) (bcube : BCube) (c : T)
    (h0 : cid.val ≠ 0) (hc : o.colliders[cid.val - 1]? = Option.some c)
    (hs : Node.which_child_bbox bcube.center (bb c) = Option.none) :
    Octree.add_down bb (f + 1) o cid nidx bcube = Except.ok (o, false) := by
  simp only [Octree.add_down, Id.toIdx, if_neg h0, ebind_ok, Octree.getCollider, hc, hs,
    epure]

theorem branch_add_full (nd : Node) (id : Id)
    (hbr : nd.is_branch = true)
    (hfull : ∀ s, s < 7 → (nd.child (8 + s)).is_none = false) :
    nd.branch_add_collider id = Except.ok Option.none := by
  have hfind : (List.range 7).find? (fun s => (nd.child (8 + s)).is_none) = Option.none := by
    apply List.find?_eq_none.mpr
    intro x hx
    simp only [List.mem_range] at hx
    simp [hfull x hx]
  simp only [Node.branch_add_collider, Node.branch_open_slot, rAssert_pos hbr, ebind_ok,
    hfind, epure]

theorem reloc_noop {T : Type} (bb : T → BBox) (o : Octree T) (nidx : Nat)
    (bcube : BCube) (nd : Node)
    (hnode : o.nodes[nidx]? = Option.some nd) :
    ∀ (l : List Nat) (f : Nat), l.length < f →
      (∀ i ∈ l, (nd.child i).val ≠ 0 ∧
        ∃ c, o.colliders[(nd.child i).val - 1]? = Option.some c ∧
          Node.which_child_bbox bcube.center (bb c) = Option.none) →
      Octree.reloc bb f o nidx bcube l = Except.ok o := by
  intro l
  induction l with
  | nil =>
      intro f _ _
      cases f <;> simp [Octree.reloc, epure]
  | cons i rest ih =>
      intro f hf hall
      match f, hf with
      | g + 1, hf =>
        have hg : rest.length < g := by simpa using hf
        have hg1 : 1 ≤ g := by omega
        match g, hg1 with
        | g1 + 1, _ =>
          obtain ⟨h0, c, hc, hs⟩ := hall i (List.mem_cons_self i rest)
          have hrest : ∀ j ∈ rest, (nd.child j).val ≠ 0 ∧
              ∃ c, o.colliders[(nd.child j).val - 1]? = Option.some c ∧
                Node.which_child_bbox bcube.center (bb c) = Option.none :=
            fun j hj => hall j (List.mem_cons_of_mem i hj)
          simp only [Octree.reloc, Octree.getNode, hnode, ebind_ok,
            add_down_straddle bb g1 o (nd.child i) nidx bcube c h0 hc hs,
            Bool.false_eq_true, if_false, epure]
          exact ih (g1 + 1) (by omega) hrest

/-- C6.  In descend-and-insert, for any tree state, branch node and object such
that the direct-collider entries of the branch (slots 8-14, all occupied) and the
object itself all straddle the center of the region (so every relocation attempt
and the push-down of the object fail, and the branch stays full): add_inside
allocates a fresh overflow leaf, attaches it through link slot 15, and returns
without storing the object into that leaf (or anywhere else) - the known
incompleteness the spec flags.  The node free-list is empty and the arena small
enough that handle arithmetic does not wrap, and the recursion fuel is any value
at least 9. -/
theorem C6_overflow_leaf {T : Type} (bb : T → BBox) (n : Nat) (o : Octree T)
    (bcube : BCube) (id : Id) (cobj : T) (nidx : Nat) (nd : Node)
    (hnode : o.nodes[nidx]? = Option.some nd)
    (hbr : nd.is_branch = true)
    (hfull : ∀ s, s < 7 → (nd.child (8 + s)).is_none = false)
    (hres : ∀ s, s < 7 → (nd.child (8 + s)).val ≠ 0 ∧
      ∃ c, o.colliders[(nd.child (8 + s)).val - 1]? = Option.some c ∧
        Node.which_child_bbox bcube.center (bb c) = Option.none)
    (hid : id.val ≠ 0)
    (hobj : o.colliders[id.val - 1]? = Option.some cobj)
    (hstr : Node.which_child_bbox bcube.center (bb cobj) = Option.none)
    (hcol : (bb cobj).collide_bcube bcube = Except.ok true)
    (hgar : o.garbage = [])
    (hlen : o.nodes.length + 1 < 4294967296) :
    Octree.add_inside bb (n + 9) o id { val := nidx + 1 } bcube =
      Except.ok (Octree.setNode { o with nodes := o.nodes ++ [Node.new_leaf] } nidx
        (nd.setChild LINK { val := o.nodes.length + 1 })) ∧
    (Octree.setNode { o with nodes := o.nodes ++ [Node.new_leaf] } nidx
        (nd.setChild LINK { val := o.nodes.length + 1 })).nodes[o.nodes.length]? =
      Option.some Node.new_leaf ∧
    (∀ i, 1 ≤ i → i ≤ 14 → Node.new_leaf.child i ≠ id) := by
  have hlt : nidx < o.nodes.length := (List.getElem?_eq_some.mp hnode).1
  have hlistres : ∀ i ∈ [8, 9, 10, 11, 12, 13, 14], (nd.child i).val ≠ 0 ∧
      ∃ c, o.colliders[(nd.child i).val - 1]? = Option.some c ∧
        Node.which_child_bbox bcube.center (bb c) = Option.none := by
    intro i hi
    fin_cases hi
    · exact hres 0 (by norm_num)
    · exact hres 1 (by norm_num)
    · exact hres 2 (by norm_num)
    · exact hres 3 (by norm_num)
    · exact hres 4 (by norm_num)
    · exact hres 5 (by norm_num)
    · exact hres 6 (by norm_num)
  have hreloc := reloc_noop bb o nidx bcube nd hnode [8, 9, 10, 11, 12, 13, 14] (n + 8)
    (by simp) hlistres
  have hidToIdx : id.toIdx = Except.ok (id.val - 1) := by simp [Id.toIdx, hid]
  have hidx : Id.toIdx { val := nidx + 1 } = Except.ok nidx := by simp [Id.toIdx]
  refine ⟨?_, ?_, ?_⟩
  · rw [show n + 9 = (n + 8) + 1 from rfl]
    simp only [Octree.add_inside, hidToIdx, ebind_ok, Octree.getCollider, hobj,
      hidx, hcol, rAssert_trivial, eq_self_iff_true, Octree.getNode, hnode, rAssert_pos hbr,
      branch_add_full nd id hbr hfull, hreloc,
      show n + 8 = (n + 7) + 1 from rfl,
      add_down_straddle bb (n + 7) o id nidx bcube cobj hid hobj hstr,
      Bool.false_eq_true, if_false, Octree.new_leaf, Octree.new_node, hgar,
      Nat.mod_eq_of_lt hlen, List.getElem?_append_left hlt, epure]
  · simp only [Octree.setNode, List.getElem?_set_ne (Nat.ne_of_lt hlt),
      List.getElem?_concat_length]
  · intro i h1 h14 heq
    have hne : i ≠ 0 := by omega
    apply hid
    rw [show Node.new_leaf.child i = Id.none from by simp [Node.new_leaf, hne]] at heq
    rw [← heq]
    rfl

/-- A box straddling the origin on every axis. -/
def sBox : BBox := { min := ⟨-1, -1, -1⟩, max := ⟨1, 1, 1⟩ }

/-- A branch whose direct-collider slots 8-14 hold the collider handles 1-7. -/
def ndC6 : Node := { child := fun j => if 8 ≤ j ∧ j ≤ 14 then { val := j - 7 } else Id.none }

/-- The region cube of the C6 witness state. -/
def bcC6 : BCube := { center := ⟨0, 0, 0⟩, half_len := 4 }

/-- A tree whose root branch is full of straddling colliders 1-7, with collider 8
(also straddling) waiting to be inserted. -/
def oC6 : Octree BBox :=
  { colliders := [sBox, sBox, sBox, sBox, sBox, sBox, sBox, sBox], collider_garbage := [],
    nodes := [ndC6], garbage := [], bcube := bcC6, root := { val := 1 }, n_colliders := 8 }

/-- C6 witness: the theorem applied to the concrete full-of-straddlers state: the
overflow leaf gets handle 2 and is linked from slot 15 of the root branch. -/
theorem C6_overflow_leaf_witness :
    Octree.add_inside bboxId 20 oC6 { val := 8 } { val := 1 } bcC6 =
      Except.ok (Octree.setNode { oC6 with nodes := oC6.nodes ++ [Node.new_leaf] } 0
        (ndC6.setChild LINK { val := 2 })) := by
  have h := C6_overflow_leaf bboxId 11 oC6 bcC6 { val := 8 } sBox 0 ndC6
    (by rfl) (by rfl)
    (by intro s hs; interval_cases s <;> rfl)
    (by intro s hs; interval_cases s <;>
        exact ⟨by decide, sBox, by rfl, by with_unfolding_all rfl⟩)
    (by norm_num) (by rfl) (by with_unfolding_all rfl) (by with_unfolding_all rfl)
    (by rfl) (by decide)
  exact h.1

/-- One public operation of the octree API, for trees storing boxes directly. -/
inductive Op where
  | addOp (b : BBox)
  | removeOp (i : Id)

/-- Run a sequence of public operations from a starting state, collecting the
handles returned by the adds. -/
def runOps (fuel : Nat) : Octree BBox → List Op → Except String (Octree BBox × List Id)
  | o, [] => pure (o, [])
  | o, (Op.addOp b) :: rest => do
      let p ← Octree.add bboxId fuel o b
      let q ← runOps fuel p.1 rest
      pure (q.1, p.2 :: q.2)
  | o, (Op.removeOp i) :: rest => do
      let p ← Octree.remove bboxId fuel o i
      runOps fuel p.1 rest

/-- Invariant of the states the public API reaches from Octree::new: both
free-lists empty, the live count equal to the collider-arena length, and, once
something was inserted, a single root branch node whose slots 1-15 are all unset
(every insertion lands in slot 0; growth and links are unreachable, see C1/C2). -/
def GoodTree (o : Octree BBox) : Prop :=
  o.collider_garbage = [] ∧ o.garbage = [] ∧
  o.n_colliders = o.colliders.length ∧
  (0 < o.n_colliders →
    (o.root = { val := 1 } ∧ ∃ nd, o.nodes = [nd] ∧ nd.is_branch = true ∧
      ∀ i, 1 ≤ i → nd.child i = Id.none))

theorem remove_from_branch_err (o : Octree BBox) (id : Id) (nd : Node)
    (hnodes : o.nodes = [nd]) (hbr : nd.is_branch = true)
    (hempty : ∀ i, 1 ≤ i → nd.child i = Id.none) (hid : id.val ≠ 0) :
    ∀ f nidx, ∃ e, Octree.remove_from_branch f o id nidx = Except.error e := by
  have hneid : ∀ i, 1 ≤ i → (nd.child i = id) = False := by
    intro i h1
    rw [hempty i h1]
    apply eq_false
    intro h
    exact hid ((congrArg Id.val h).symm)
  intro f nidx
  match f with
  | 0 => exact ⟨"fuel", rfl⟩
  | g + 1 =>
    match nidx with
    | 0 =>
        have hfind : (List.drop 8 (List.range 15)).find?
            (fun i => decide (nd.child i = id)) = Option.none := by
          rw [show List.drop 8 (List.range 15) = [8, 9, 10, 11, 12, 13, 14] from rfl]
          simp [List.find?, hneid 8 (by norm_num), hneid 9 (by norm_num),
            hneid 10 (by norm_num), hneid 11 (by norm_num), hneid 12 (by norm_num),
            hneid 13 (by norm_num), hneid 14 (by norm_num)]
        have hlink : nd.link = Option.none := by
          simp [Node.link, LINK, hempty 15 (by norm_num), Id.none]
        refine ⟨"unwrap on none", ?_⟩
        simp only [Octree.remove_from_branch, Octree.getNode, hnodes,
          List.getElem?_cons_zero, ebind_ok, Node.remove_collider, hbr, if_true,
          Node.branch_remove_collider, rAssert_pos hbr, rAssert_trivial,
          eq_self_iff_true, hfind, ebind_ok, hlink, epure]
    | k + 1 =>
        refine ⟨"index out of bounds", ?_⟩
        have hnone : ([nd] : List Node)[k + 1]? = Option.none := rfl
        simp only [Octree.remove_from_branch, Octree.getNode, hnodes, hnone, ebind_err]
theorem remove_inside_err (o : Octree BBox) (nd : Node)
    (hnodes : o.nodes = [nd]) (hbr : nd.is_branch = true)
    (hempty : ∀ i, 1 ≤ i → nd.child i = Id.none) :
    ∀ f id node_id bcube, ∃ e,
      Octree.remove_inside bboxId f o id node_id bcube = Except.error e := by
  intro f
  induction f with
  | zero => exact fun id nid bc => ⟨"fuel", rfl⟩
  | succ g ih =>
      intro id node_id bcube
      by_cases hidv : id.val = 0
      · exact ⟨"u32 underflow", by
          simp only [Octree.remove_inside, Id.toIdx, if_pos hidv, ebind_err]⟩
      · cases hc : o.colliders[id.val - 1]? with
        | none =>
            refine ⟨"index out of bounds", ?_⟩
            simp only [Octree.remove_inside, Id.toIdx, if_neg hidv, ebind_ok,
              Octree.getCollider, hc, ebind_err]
        | some c =>
          by_cases hnid : node_id.val = 0
          · exact ⟨"u32 underflow", by
              simp only [Octree.remove_inside, Id.toIdx, if_neg hidv, if_pos hnid,
                ebind_ok, Octree.getCollider, hc, ebind_err]⟩
          · cases hcb : (bboxId c).collide_bcube bcube with
            | error e =>
                refine ⟨e, ?_⟩
                simp only [Octree.remove_inside, Id.toIdx, if_neg hidv, if_neg hnid,
                  ebind_ok, Octree.getCollider, hc, hcb, ebind_err]
            | ok cbv =>
              cases cbv with
              | false =>
                  refine ⟨"assertion failed", ?_⟩
                  simp only [Octree.remove_inside, Id.toIdx, if_neg hidv, if_neg hnid,
                    ebind_ok, Octree.getCollider, hc, hcb,
                    rAssert_neg (by simp : ¬(false = true)), ebind_err]
              | true =>
                cases hni : node_id.val - 1 with
                | zero =>
                    cases hwc : Node.which_child_bbox bcube.center (bboxId c) with
                    | none =>
                        obtain ⟨e, he⟩ :=
                          remove_from_branch_err o id nd hnodes hbr hempty hidv g 0
                        refine ⟨e, ?_⟩
                        simp only [Octree.remove_inside, Id.toIdx, if_neg hidv,
                          if_neg hnid, ebind_ok, Octree.getCollider, hc, hcb,
                          rAssert_trivial, eq_self_iff_true, hni, Octree.getNode, hnodes,
                          List.getElem?_cons_zero, rAssert_pos hbr, hwc, he, ebind_err,
                          ebind_ok]
                    | some ch =>
                        by_cases hj : (nd.child ch).is_some = true
                        · obtain ⟨e, he⟩ := ih id (nd.child ch) bcube
                          refine ⟨e, ?_⟩
                          simp only [Octree.remove_inside, Id.toIdx, if_neg hidv,
                            if_neg hnid, ebind_ok, Octree.getCollider, hc, hcb,
                            rAssert_trivial, eq_self_iff_true, hni, Octree.getNode,
                            hnodes, List.getElem?_cons_zero, rAssert_pos hbr, hwc, hj,
                            if_true, he, ebind_err, ebind_ok]
                        · obtain ⟨e, he⟩ :=
                            remove_from_branch_err o id nd hnodes hbr hempty hidv g 0
                          rw [Bool.not_eq_true] at hj
                          refine ⟨e, ?_⟩
                          simp only [Octree.remove_inside, Id.toIdx, if_neg hidv,
                            if_neg hnid, ebind_ok, Octree.getCollider, hc, hcb,
                            rAssert_trivial, eq_self_iff_true, hni, Octree.getNode,
                            hnodes, List.getElem?_cons_zero, rAssert_pos hbr, hwc, hj,
                            Bool.false_eq_true, if_false, he, ebind_err, ebind_ok]
                | succ k =>
                    refine ⟨"index out of bounds", ?_⟩
                    have hnone : ([nd] : List Node)[k + 1]? = Option.none := rfl
                    simp only [Octree.remove_inside, Id.toIdx, if_neg hidv, if_neg hnid,
                      ebind_ok, Octree.getCollider, hc, hcb, rAssert_trivial,
                      eq_self_iff_true, hni, Octree.getNode, hnodes, hnone, ebind_err]
theorem remove_err (o : Octree BBox) (hg : GoodTree o) (fuel : Nat) (id : Id) :
    ∃ e, Octree.remove bboxId fuel o id = Except.error e := by
  obtain ⟨hcg, hga, hnc, hroot⟩ := hg
  by_cases hn : 0 < o.n_colliders
  · obtain ⟨hr, nd, hnodes, hbr, hempty⟩ := hroot hn
    obtain ⟨e, he⟩ := remove_inside_err o nd hnodes hbr hempty fuel id o.root o.bcube
    refine ⟨e, ?_⟩
    simp only [Octree.remove, rAssert_pos hn, ebind_ok, he, ebind_err]
  · refine ⟨"assertion failed", ?_⟩
    simp only [Octree.remove, rAssert_neg hn, ebind_err]

theorem grow_loop_ok {T : Type} (bb : T → BBox) (bbox : BBox) (bcube0 : BCube) :
    ∀ (f : Nat) (o o2 : Octree T), Octree.grow_loop bb f o bbox bcube0 = Except.ok o2 →
      o2 = o ∧ bbox.collide_bcube bcube0 = Except.ok true := by
  intro f
  induction f with
  | zero =>
      intro o o2 h
      cases hcb : bbox.collide_bcube bcube0 with
      | error e =>
          simp only [Octree.grow_loop, hcb, ebind_err] at h
          exact Except.noConfusion h
      | ok b =>
          cases b with
          | false =>
              simp only [Octree.grow_loop, hcb, ebind_ok, Bool.false_eq_true,
                if_false] at h
              exact Except.noConfusion h
          | true =>
              simp only [Octree.grow_loop, hcb, ebind_ok, if_true, epure,
                Except.ok.injEq] at h
              exact ⟨h.symm, rfl⟩
  | succ g ih =>
      intro o o2 h
      cases hcb : bbox.collide_bcube bcube0 with
      | error e =>
          simp only [Octree.grow_loop, hcb, ebind_err] at h
          exact Except.noConfusion h
      | ok b =>
          cases b with
          | false =>
              simp only [Octree.grow_loop, hcb, ebind_ok, Bool.false_eq_true,
                if_false] at h
              cases hgr : Octree.grow_root o bbox with
              | error e =>
                  rw [hgr, ebind_err] at h
                  exact Except.noConfusion h
              | ok o3 =>
                  rw [hgr, ebind_ok] at h
                  have hco := (ih o3 o2 h).2
                  rw [hcb] at hco
                  exact absurd hco (by simp)
          | true =>
              simp only [Octree.grow_loop, hcb, ebind_ok, if_true, epure,
                Except.ok.injEq] at h
              exact ⟨h.symm, rfl⟩

theorem add_0_eval (o : Octree BBox) (id : Id) (c : BBox)
    (hn : o.n_colliders = 0)
    (hid : id.val ≠ 0)
    (hc : o.colliders[id.val - 1]? = Option.some c) :
    Octree.add_0 bboxId o id = Except.ok
      { colliders := o.colliders, collider_garbage := o.collider_garbage,
        nodes := [Node.new_branch.setChild 0 id], garbage := [],
        bcube := c.toBCube, root := { val := 1 }, n_colliders := o.n_colliders } := by
  have hfind : (List.range 7).find? (fun s => (Node.new_branch.child (8 + s)).is_none)
      = Option.some 0 := rfl
  have hadd : Node.new_branch.branch_add_collider id =
      Except.ok (Option.some (Node.new_branch.setChild 0 id)) := by
    simp only [Node.branch_add_collider, Node.branch_open_slot,
      rAssert_pos (show Node.new_branch.is_branch = true from rfl), ebind_ok, hfind, epure]
  have hidTo : id.toIdx = Except.ok (id.val - 1) := by simp [Id.toIdx, hid]
  have hmod1 : (0 + 1) % 4294967296 = 1 := rfl
  have hidx1 : Id.toIdx { val := 1 } = Except.ok 0 := rfl
  simp only [Octree.add_0, rAssert_pos hn, ebind_ok, hidTo, Octree.getCollider, hc,
    Octree.new_branch, Octree.new_node, List.nil_append, List.length_nil, hmod1,
    hidx1, Octree.getNode, List.getElem?_cons_zero, hadd, Octree.setNode,
    List.set_cons_zero, epure, bboxId]
theorem add_inside_open (o : Octree BBox) (id : Id) (nd : Node) (bcube : BCube)
    (c : BBox) (f : Nat)
    (hnodes : o.nodes = [nd]) (hbr : nd.is_branch = true)
    (hopen : (nd.child 8).is_none = true)
    (hid : id.val ≠ 0) (hc : o.colliders[id.val - 1]? = Option.some c)
    (hcb : (bboxId c).collide_bcube bcube = Except.ok true) :
    Octree.add_inside bboxId (f + 1) o id { val := 1 } bcube =
      Except.ok (o.setNode 0 (nd.setChild 0 id)) := by
  have hfind : (List.range 7).find? (fun s => (nd.child (8 + s)).is_none)
      = Option.some 0 := by
    rw [show List.range 7 = 0 :: [1, 2, 3, 4, 5, 6] from rfl]
    rw [List.find?_cons]
    norm_num [hopen]
  have hadd : nd.branch_add_collider id =
      Except.ok (Option.some (nd.setChild 0 id)) := by
    simp only [Node.branch_add_collider, Node.branch_open_slot, rAssert_pos hbr,
      ebind_ok, hfind, epure]
  have hidTo : id.toIdx = Except.ok (id.val - 1) := by simp [Id.toIdx, hid]
  have hidx1 : Id.toIdx { val := 1 } = Except.ok 0 := rfl
  simp only [Octree.add_inside, hidTo, ebind_ok, Octree.getCollider, hc, hidx1,
    hcb, rAssert_trivial, eq_self_iff_true, Octree.getNode, hnodes,
    List.getElem?_cons_zero, rAssert_pos hbr, hadd, epure]
theorem ebind_ok_iff {α β : Type} (m : Except String α) (f : α → Except String β) (r : β) :
    (m >>= f) = Except.ok r ↔ ∃ a, m = Except.ok a ∧ f a = Except.ok r := by
  cases m with
  | error e =>
      rw [ebind_err]
      constructor
      · intro h; exact Except.noConfusion h
      · rintro ⟨a, ha, -⟩; exact Except.noConfusion ha
  | ok a =>
      rw [ebind_ok]
      constructor
      · intro h; exact ⟨a, rfl, h⟩
      · rintro ⟨a2, ha, hf⟩
        rw [Except.ok.inj ha]
        exact hf

theorem add_good (o : Octree BBox) (b : BBox) (fuel : Nat) (o1 : Octree BBox) (h : Id)
    (hg : GoodTree o)
    (hlen : o.colliders.length + 2 < 4294967295)
    (hadd : Octree.add bboxId fuel o b = Except.ok (o1, h)) :
    GoodTree o1 ∧ h = { val := o.colliders.length + 1 } ∧
      o1.colliders.length = o.colliders.length + 1 := by
  obtain ⟨hcg, hga, hnc, hroot⟩ := hg
  have hmod : (o.colliders.length + 1) % 4294967296 = o.colliders.length + 1 :=
    Nat.mod_eq_of_lt (by omega)
  have hidne : o.colliders.length + 1 ≠ 0 := by omega
  have hcat : (o.colliders ++ [b])[o.colliders.length + 1 - 1]? = Option.some b := by
    rw [Nat.add_sub_cancel]
    exact List.getElem?_concat_length o.colliders b
  simp only [Octree.add, hcg, hmod, ebind_ok, epure] at hadd
  cases hn0 : o.n_colliders with
  | zero =>
      rw [hn0] at hadd
      rw [ebind_ok_iff] at hadd
      obtain ⟨y, hy, hfin⟩ := hadd
      have hyX := hy.symm.trans (add_0_eval _ _ b ?_ ?_ ?_)
      rotate_left
      · exact rfl
      · exact hidne
      · exact hcat
      rw [Except.ok.inj hyX] at hfin
      simp only [Except.ok.injEq, Prod.mk.injEq] at hfin
      obtain ⟨ho1, hh⟩ := hfin
      subst ho1
      have hl0 : o.colliders.length = 0 := by omega
      refine ⟨⟨by simp, rfl, by simp [List.length_append, hl0], ?_⟩,
        hh.symm, by simp [List.length_append]⟩
      intro _
      refine ⟨rfl, Node.new_branch.setChild 0 { val := o.colliders.length + 1 }, rfl,
        ?_, ?_⟩
      · rw [hl0]
        rfl
      · intro i hi
        have hne : i ≠ 0 := by omega
        simp [Node.setChild, hne, Node.new_branch]
  | succ m =>
      rw [hn0] at hadd
      obtain ⟨hr, nd, hnodes, hbr, hempty⟩ := hroot (by omega)
      simp only [Octree.add_n, rAssert_pos (show 0 < m + 1 by omega), ebind_ok] at hadd
      have hidTo2 : Id.toIdx { val := o.colliders.length + 1 } =
          Except.ok (o.colliders.length + 1 - 1) := by simp [Id.toIdx, hidne]
      rw [hidTo2] at hadd
      simp only [ebind_ok, Octree.getCollider, hcat, bboxId] at hadd
      rw [ebind_ok_iff] at hadd
      obtain ⟨y, hy, hfin⟩ := hadd
      rw [ebind_ok_iff] at hy
      obtain ⟨o2, hgl, hins⟩ := hy
      obtain ⟨ho2, hcbT⟩ := grow_loop_ok bboxId b o.bcube fuel _ o2 hgl
      rw [ho2, hr] at hins
      cases fuel with
      | zero =>
          simp only [Octree.add_inside] at hins
          exact Except.noConfusion hins
      | succ f =>
          have hinsX := hins.symm.trans (add_inside_open _ _ nd _ b f ?_ ?_ ?_ ?_ ?_ ?_)
          rotate_left
          · simpa using hnodes
          · exact hbr
          · simp [hempty 8 (by norm_num), Id.is_none, Id.none]
          · exact hidne
          · exact hcat
          · simpa [bboxId] using hcbT
          rw [Except.ok.inj hinsX] at hfin
          simp only [Except.ok.injEq, Prod.mk.injEq] at hfin
          obtain ⟨ho1, hh⟩ := hfin
          subst ho1
          refine ⟨⟨by simp [Octree.setNode], by simp [Octree.setNode, hga],
            ?_, ?_⟩, hh.symm, by simp [Octree.setNode, List.length_append]⟩
          · simp only [Octree.setNode, List.length_append, List.length_set]
            simp
            omega
          · intro _
            refine ⟨by simp [Octree.setNode],
              nd.setChild 0 { val := o.colliders.length + 1 },
              by simp [Octree.setNode, hnodes], ?_, ?_⟩
            · simp [Node.is_branch, Node.is_leaf, Node.setChild, LEAF, Id.mk.injEq]
              omega
            · intro i hi
              have hne : i ≠ 0 := by omega
              simp [Node.setChild, hne, hempty i hi]
theorem runOps_spec (fuel : Nat) : ∀ (ops : List Op) (o0 : Octree BBox),
    GoodTree o0 → o0.colliders.length + ops.length + 2 < 4294967295 →
    ∀ o hs, runOps fuel o0 ops = Except.ok (o, hs) →
      hs = (List.range ops.length).map
        (fun i => { val := o0.colliders.length + i + 1 }) ∧
      GoodTree o ∧ o.colliders.length = o0.colliders.length + ops.length := by
  intro ops
  induction ops with
  | nil =>
      intro o0 hg hb o hs hrun
      simp only [runOps, epure, Except.ok.injEq, Prod.mk.injEq] at hrun
      obtain ⟨ho, hhs⟩ := hrun
      subst ho
      subst hhs
      simp [hg]
  | cons op rest ih =>
      intro o0 hg hb o hs hrun
      cases op with
      | addOp b =>
          simp only [runOps] at hrun
          rw [ebind_ok_iff] at hrun
          obtain ⟨p, hadd, hrun⟩ := hrun
          obtain ⟨hg1, hh, hl1⟩ := add_good o0 b fuel p.1 p.2 hg
            (by simp only [List.length_cons] at hb; omega) hadd
          rw [ebind_ok_iff] at hrun
          obtain ⟨q, hrest, hfin⟩ := hrun
          obtain ⟨hhs, hg2, hl2⟩ := ih p.1 hg1
            (by simp only [List.length_cons] at hb; omega) q.1 q.2 hrest
          simp only [epure, Except.ok.injEq, Prod.mk.injEq] at hfin
          obtain ⟨ho, hhs2⟩ := hfin
          subst ho
          subst hhs2
          refine ⟨?_, hg2, by simp only [List.length_cons]; omega⟩
          rw [hhs, hh]
          rw [List.length_cons, List.range_succ_eq_map]
          simp only [List.map_cons, List.map_map, List.cons.injEq]
          refine ⟨by simp, ?_⟩
          rw [hl1]
          apply List.map_congr_left
          intro i _
          simp only [Function.comp_apply, Id.mk.injEq]
          omega
      | removeOp i =>
          obtain ⟨e, he⟩ := remove_err o0 hg fuel i
          simp only [runOps, he, ebind_err] at hrun
          exact Except.noConfusion hrun
/-- C10.  For every sequence of public add and remove calls executed from a fresh
tree that completes without a modelled panic (and is short enough that u32 handle
arithmetic cannot wrap), every handle returned by an add is nonzero and the
handles are pairwise distinct; in fact they are exactly 1, 2, ... in order.
Removes of previously returned handles never complete (see C7), so no handle is
ever recycled in a completed run, and every completed run is add-only. -/
theorem C10_handles_nonzero_distinct (fuel : Nat) (ops : List Op) (hs : List Id)
    (hbound : ops.length + 2 < 4294967295)
    (hrun : ∃ o, runOps fuel Octree.new ops = Except.ok (o, hs)) :
    (∀ h ∈ hs, h ≠ Id.none) ∧ hs.Nodup := by
  obtain ⟨o, hrun⟩ := hrun
  have hg : GoodTree (Octree.new : Octree BBox) :=
    ⟨rfl, rfl, rfl, fun h => absurd h (by simp [Octree.new])⟩
  obtain ⟨hhs, -, -⟩ := runOps_spec fuel ops Octree.new hg
    (by simpa [Octree.new] using hbound) o hs hrun
  subst hhs
  constructor
  · intro h hmem
    simp only [List.mem_map, List.mem_range] at hmem
    obtain ⟨i, -, rfl⟩ := hmem
    simp only [ne_eq, Id.mk.injEq, Id.none]
    omega
  · refine List.Nodup.map ?_ (List.nodup_range ops.length)
    intro a b hab
    simp only [Id.mk.injEq] at hab
    omega

/-- C10 witness: the theorem applied to the two-add run that returns handles 1
and 2. -/
theorem C10_handles_nonzero_distinct_witness :
    ({ val := 1 } : Id) ≠ Id.none ∧ ([{ val := 1 }, { val := 2 }] : List Id).Nodup := by
  have h := C10_handles_nonzero_distinct 3 [Op.addOp b0, Op.addOp bA]
    [{ val := 1 }, { val := 2 }] (by norm_num)
    ⟨_, by with_unfolding_all rfl⟩
  exact ⟨h.1 { val := 1 } (by simp), h.2⟩
end Ami
